import Mathlib

set_option maxRecDepth 8000

/-!
Verification of the DNS zone management core (validator, serializer,
store/loader) of `src/server.js`, together with the duplicated serializer of
the bulk import script (`src/unnamed/part_000`).

The embedding follows the JavaScript source closely.  Values that JavaScript
leaves implicit are made explicit:

* a record field that may be `undefined` or a string is an `Option String`
  (the JSON value space of this application contains only strings and
  absent keys; `null` and non-string values are outside the modelled space);
* the ambient UTC clock read by the serializer is an explicit `ZoneDate`
  argument;
* filesystem success and failure of the individual write steps are explicit
  Boolean oracles, and the two zone directories are explicit listings.

External library behaviour (Node's `net.isIP`, `JSON.parse`/`JSON.stringify`,
`Number`) is modelled from its documented semantics where the source calls it.
-/

namespace Dns

/-! ## JavaScript string primitives -/

/-- JS truthiness of a string-or-absent field: `undefined` and the empty
string are falsy (this models the guards `!r.value`, `r.name && ...`). -/
def jsFalsy : Option String → Bool
  | none => true
  | some s => s.isEmpty

/-- JS template interpolation of a possibly absent value: an absent value
renders as the literal text `undefined`. -/
def jsTemplate : Option String → String
  | none => "undefined"
  | some s => s

/-- JS `x || d` on a string-or-absent value. -/
def jsOrDefault (v : Option String) (d : String) : String :=
  if jsFalsy v then d else jsTemplate v

/-- The whitespace class used by JS `String.prototype.trim`, by code point
(space, tab, newline, carriage return, vertical tab, form feed; Unicode
whitespace is outside the modelled value space). -/
def isWSChar (c : Char) : Bool :=
  c.toNat == 32 || c.toNat == 9 || c.toNat == 10 || c.toNat == 13 ||
  c.toNat == 11 || c.toNat == 12

/-- JS `s.trim()` on the character list of `s`. -/
def jsTrim (l : List Char) : List Char :=
  ((l.dropWhile isWSChar).reverse.dropWhile isWSChar).reverse

/-- JS `toLowerCase` on a single ASCII character, by code point (A-Z is
65-90; non-ASCII case mapping is outside the modelled value space and is
irrelevant to every claim, because the later per-character replacement
dominates). -/
def jsLowerChar (c : Char) : Char :=
  if 65 ≤ c.toNat && c.toNat ≤ 90 then Char.ofNat (c.toNat + 32) else c

/-- The character class `[a-z0-9.-]` of `sanitizeDomainForFilename`, by
code point (a-z is 97-122, 0-9 is 48-57, dot 46, hyphen 45). -/
def allowedChar (c : Char) : Bool :=
  (97 ≤ c.toNat && c.toNat ≤ 122) || (48 ≤ c.toNat && c.toNat ≤ 57) ||
  c.toNat == 46 || c.toNat == 45

/-- `src/server.js` lines 138-141 (identical in the bulk script):
`String(domain).trim().toLowerCase().replace(/[^a-z0-9.-]/g, '-')`. -/
def sanitizeDomainForFilename (domain : String) : String :=
  String.mk (((jsTrim domain.data).map jsLowerChar).map
    (fun c => if allowedChar c then c else '-'))

/-- First-occurrence replacement of a double tab by a single tab on a
character list: the semantics of JS `line.replace('\t\t', '\t')`. -/
def replTT : List Char → List Char
  | [] => []
  | c₁ :: rest =>
    match rest with
    | [] => [c₁]
    | c₂ :: rest' =>
      if c₁ == '\t' && c₂ == '\t' then '\t' :: rest'
      else c₁ :: replTT rest

/-- JS `line.replace('\t\t', '\t')` (only the first occurrence). -/
def collapseTT (s : String) : String := String.mk (replTT s.data)

/-- Is there an adjacent pair of tabs anywhere in the list? -/
def hasTT : List Char → Bool
  | [] => false
  | c₁ :: rest =>
    match rest with
    | [] => false
    | c₂ :: _ => (c₁ == '\t' && c₂ == '\t') || hasTT rest

/-! ## Data model -/

/-- One DNS record entry as submitted by the caller.  The JS object field
`type` (used only inside `Other Records`) is named `rtype` here. -/
structure DnsRecord where
  name : Option String := none
  value : Option String := none
  ttl : Option String := none
  priority : Option String := none
  rtype : Option String := none
deriving DecidableEq, Repr

/-- A record set: each recognized type tag is either absent or bound to an
array of entries.  JS keys `Other TXT Records` and `Other Records` are the
fields `otherTXT` and `otherRecords`. -/
structure RecordSet where
  A : Option (List DnsRecord) := none
  AAAA : Option (List DnsRecord) := none
  CNAME : Option (List DnsRecord) := none
  MX : Option (List DnsRecord) := none
  TXT : Option (List DnsRecord) := none
  SPF : Option (List DnsRecord) := none
  otherTXT : Option (List DnsRecord) := none
  otherRecords : Option (List DnsRecord) := none
deriving DecidableEq, Repr

/-- The current UTC date read by the serializer through `new Date()`
(`getUTCFullYear`, `getUTCMonth() + 1`, `getUTCDate`). -/
structure ZoneDate where
  y : Nat
  m : Nat
  d : Nat
deriving DecidableEq, Repr

/-! ## The serializer of src/server.js (formatZoneFile, lines 35-135) -/

/-- JS `String(n).padStart(2, '0')`. -/
def pad2 (n : Nat) : String := if n < 10 then "0" ++ toString n else toString n

/-- The YYYYMMDD01 serial of the SOA block (server.js lines 43-47). -/
def serialOf (dt : ZoneDate) : String :=
  toString dt.y ++ pad2 dt.m ++ pad2 dt.d ++ "01"

/-- `r.name && r.name !== '@' ? r.name : '@'`. -/
def nameOrApex (n : Option String) : String :=
  if !(jsFalsy n) && jsTemplate n != "@" then jsTemplate n else "@"

/-- A-record line (server.js line 63). -/
def lineA (r : DnsRecord) : String :=
  collapseTT (nameOrApex r.name ++ "\t" ++ jsOrDefault r.ttl "" ++ "\tIN\tA\t" ++
    jsTemplate r.value)

/-- AAAA-record line (server.js line 74). -/
def lineAAAA (r : DnsRecord) : String :=
  collapseTT (nameOrApex r.name ++ "\t" ++ jsOrDefault r.ttl "" ++ "\tIN\tAAAA\t" ++
    jsTemplate r.value)

/-- CNAME-record line (server.js line 85); `r.name || ''` leaves an empty
name empty instead of defaulting to the apex. -/
def lineCNAME (r : DnsRecord) : String :=
  collapseTT (jsOrDefault r.name "" ++ "\t" ++ jsOrDefault r.ttl "" ++
    "\tIN\tCNAME\t" ++ jsTemplate r.value)

/-- `r.priority !== undefined && r.priority !== '' ? r.priority : '10'`. -/
def mxPriority (p : Option String) : String :=
  match p with
  | some s => if s.isEmpty then "10" else s
  | none => "10"

/-- MX-record line (server.js line 97). -/
def lineMX (r : DnsRecord) : String :=
  collapseTT (nameOrApex r.name ++ "\t" ++ jsOrDefault r.ttl "" ++ "\tIN\tMX\t" ++
    mxPriority r.priority ++ "\t" ++ jsTemplate r.value)

/-- `"x"` quoting of a TXT value. -/
def quoteStr (s : String) : String := "\"" ++ s ++ "\""

/-- server.js line 113: `r.value && r.value.includes(' ') ? ... : ...`
(for string values both branches quote; an absent value becomes `""`). -/
def txtValue (v : Option String) : String :=
  if !(jsFalsy v) && (jsTemplate v).data.contains ' ' then quoteStr (jsTemplate v)
  else quoteStr (jsOrDefault v "")

/-- TXT-record line (server.js line 114). -/
def lineTXT (r : DnsRecord) : String :=
  collapseTT (nameOrApex r.name ++ "\t" ++ jsOrDefault r.ttl "" ++ "\tIN\tTXT\t" ++
    txtValue r.value)

/-- NS-record line (server.js line 127). -/
def lineNS (r : DnsRecord) : String :=
  collapseTT (nameOrApex r.name ++ "\t" ++ jsOrDefault r.ttl "" ++ "\tIN\tNS\t" ++
    jsTemplate r.value)

/-- Fixed header and SOA block (server.js lines 37-55). -/
def soaBlock (dt : ZoneDate) (domain : String) : List String :=
  ["$TTL     86400    ; default TTL for this zone (1 day)",
   "$ORIGIN " ++ domain ++ ".",
   "",
   "; SOA Record",
   "@       3600     IN     SOA     dns1.nobus.io.  hostmaster.nobus.io. (",
   "                                        " ++ serialOf dt,
   "                                        28800",
   "                                        7200",
   "                                        604800",
   "                                        3600",
   "                                        )",
   ""]

/-- A section (server.js lines 58-66): pushed only if the tag is an array
with at least one entry. -/
def sectA (o : Option (List DnsRecord)) : List String :=
  match o with
  | some l => if l.isEmpty then [] else "; A Record" :: (l.map lineA ++ [""])
  | none => []

/-- AAAA section (server.js lines 69-77). -/
def sectAAAA (o : Option (List DnsRecord)) : List String :=
  match o with
  | some l => if l.isEmpty then [] else "; AAAA Record" :: (l.map lineAAAA ++ [""])
  | none => []

/-- CNAME section (server.js lines 80-88). -/
def sectCNAME (o : Option (List DnsRecord)) : List String :=
  match o with
  | some l => if l.isEmpty then [] else "; CNAME Record" :: (l.map lineCNAME ++ [""])
  | none => []

/-- MX section (server.js lines 91-100). -/
def sectMX (o : Option (List DnsRecord)) : List String :=
  match o with
  | some l => if l.isEmpty then [] else "; MX Record" :: (l.map lineMX ++ [""])
  | none => []

/-- The merged TXT list (server.js lines 103-106): TXT, then
`Other TXT Records`, then SPF. -/
def txtList (rs : RecordSet) : List DnsRecord :=
  (match rs.TXT with | some l => l | none => []) ++
  (match rs.otherTXT with | some l => l | none => []) ++
  (match rs.SPF with | some l => l | none => [])

/-- Merged TXT section (server.js lines 107-117). -/
def sectTXT (rs : RecordSet) : List String :=
  if (txtList rs).isEmpty then []
  else "; TXT Record" :: ((txtList rs).map lineTXT ++ [""])

/-- NS section (server.js lines 120-131): the entries of `Other Records`
whose `type` equals `NS`. -/
def sectNS (o : Option (List DnsRecord)) : List String :=
  match o with
  | some l =>
    let ns := l.filter (fun r => r.rtype == some "NS")
    if ns.isEmpty then [] else "; NS Record" :: (ns.map lineNS ++ [""])
  | none => []

/-- The pushed lines of `formatZoneFile` in src/server.js, in push order. -/
def zoneLines (dt : ZoneDate) (domain : String) (records : RecordSet) : List String :=
  soaBlock dt domain ++ sectA records.A ++ sectAAAA records.AAAA ++
  sectCNAME records.CNAME ++ sectMX records.MX ++ sectTXT records ++
  sectNS records.otherRecords

/-- `formatZoneFile` of src/server.js: `lines.join('\n')`. -/
def formatZoneFile (dt : ZoneDate) (domain : String) (records : RecordSet) : String :=
  String.intercalate "\n" (zoneLines dt domain records)

/-! ## The duplicated serializer of the bulk import script
(src/unnamed/part_000, formatZoneFile, lines 26-116).  The per-type guards
are plain truthiness checks (`records.A && records.A.length`) instead of the
server's `Array.isArray(records.A) && records.A.length`; over record sets in
which every tag is absent or an array the two coincide, except that the
NS block additionally tests the length of `Other Records` before filtering. -/

def bulkLineA (r : DnsRecord) : String :=
  collapseTT (nameOrApex r.name ++ "\t" ++ jsOrDefault r.ttl "" ++ "\tIN\tA\t" ++
    jsTemplate r.value)

def bulkLineAAAA (r : DnsRecord) : String :=
  collapseTT (nameOrApex r.name ++ "\t" ++ jsOrDefault r.ttl "" ++ "\tIN\tAAAA\t" ++
    jsTemplate r.value)

def bulkLineCNAME (r : DnsRecord) : String :=
  collapseTT (jsOrDefault r.name "" ++ "\t" ++ jsOrDefault r.ttl "" ++
    "\tIN\tCNAME\t" ++ jsTemplate r.value)

def bulkLineMX (r : DnsRecord) : String :=
  collapseTT (nameOrApex r.name ++ "\t" ++ jsOrDefault r.ttl "" ++ "\tIN\tMX\t" ++
    mxPriority r.priority ++ "\t" ++ jsTemplate r.value)

def bulkLineTXT (r : DnsRecord) : String :=
  collapseTT (nameOrApex r.name ++ "\t" ++ jsOrDefault r.ttl "" ++ "\tIN\tTXT\t" ++
    txtValue r.value)

def bulkLineNS (r : DnsRecord) : String :=
  collapseTT (nameOrApex r.name ++ "\t" ++ jsOrDefault r.ttl "" ++ "\tIN\tNS\t" ++
    jsTemplate r.value)

def bulkSectA (o : Option (List DnsRecord)) : List String :=
  match o with
  | some l => if l.isEmpty then [] else "; A Record" :: (l.map bulkLineA ++ [""])
  | none => []

def bulkSectAAAA (o : Option (List DnsRecord)) : List String :=
  match o with
  | some l => if l.isEmpty then [] else "; AAAA Record" :: (l.map bulkLineAAAA ++ [""])
  | none => []

def bulkSectCNAME (o : Option (List DnsRecord)) : List String :=
  match o with
  | some l => if l.isEmpty then [] else "; CNAME Record" :: (l.map bulkLineCNAME ++ [""])
  | none => []

def bulkSectMX (o : Option (List DnsRecord)) : List String :=
  match o with
  | some l => if l.isEmpty then [] else "; MX Record" :: (l.map bulkLineMX ++ [""])
  | none => []

def bulkTxtList (rs : RecordSet) : List DnsRecord :=
  (match rs.TXT with | some l => l | none => []) ++
  (match rs.otherTXT with | some l => l | none => []) ++
  (match rs.SPF with | some l => l | none => [])

def bulkSectTXT (rs : RecordSet) : List String :=
  if (bulkTxtList rs).isEmpty then []
  else "; TXT Record" :: ((bulkTxtList rs).map bulkLineTXT ++ [""])

/-- part_000 lines 102-113: the outer guard also checks
`records['Other Records'].length` before filtering for NS entries. -/
def bulkSectNS (o : Option (List DnsRecord)) : List String :=
  match o with
  | some l =>
    if l.isEmpty then []
    else
      let ns := l.filter (fun r => r.rtype == some "NS")
      if ns.isEmpty then [] else "; NS Record" :: (ns.map bulkLineNS ++ [""])
  | none => []

def bulkZoneLines (dt : ZoneDate) (domain : String) (records : RecordSet) : List String :=
  soaBlock dt domain ++ bulkSectA records.A ++ bulkSectAAAA records.AAAA ++
  bulkSectCNAME records.CNAME ++ bulkSectMX records.MX ++ bulkSectTXT records ++
  bulkSectNS records.otherRecords

/-- `formatZoneFile` of src/unnamed/part_000. -/
def bulkFormatZoneFile (dt : ZoneDate) (domain : String) (records : RecordSet) : String :=
  String.intercalate "\n" (bulkZoneLines dt domain records)

/-! ## The validator of src/server.js (validateRecords, lines 178-259) -/

/-- A single-quote character, used inside the error message texts. -/
def sq : String := String.singleton (Char.ofNat 39)

/-- server.js lines 185-189: a TTL is valid when absent or empty, or when
stripping every non-digit character leaves a non-empty digit string
(`parseInt` of the stripped string is then a non-negative number). -/
def checkTTL (ttl : Option String) : Bool :=
  match ttl with
  | none => true
  | some s => if s.isEmpty then true else !((s.data.filter Char.isDigit).isEmpty)

/-- Split a character list at every occurrence of a separator character
(the single-character case of JS `split`). -/
def splitOnChar (sep : Char) : List Char → List (List Char)
  | [] => [[]]
  | c :: rest =>
    if c == sep then [] :: splitOnChar sep rest
    else
      match splitOnChar sep rest with
      | h :: t => (c :: h) :: t
      | [] => [[c]]

/-- The numeric value of a digit string. -/
def digitsToNat (l : List Char) : Nat :=
  l.foldl (fun a c => a * 10 + (c.toNat - 48)) 0

/-- Modelled from Node's `net.isIP(v) === 4` (external library): a
dot-separated decimal octet, 1-3 digits without a leading zero,
valued 0-255. -/
def isOctet (p : List Char) : Bool :=
  !p.isEmpty && p.length ≤ 3 && p.all Char.isDigit &&
  (p.length == 1 || p.head? != some '0') &&
  digitsToNat p ≤ 255

/-- Modelled from Node's `net.isIP(v) === 4` (external library): exactly
four octets. -/
def isIPv4 (s : String) : Bool :=
  let parts := splitOnChar '.' s.data
  parts.length == 4 && parts.all isOctet

/-- A 1-4 digit hexadecimal group of an IPv6 address. -/
def isHexGroup (p : List Char) : Bool :=
  !p.isEmpty && p.length ≤ 4 &&
  p.all (fun c => c.isDigit || (97 ≤ c.toNat && c.toNat ≤ 102) ||
    (65 ≤ c.toNat && c.toNat ≤ 70))

/-- Fuel-driven scan splitting a character list at every occurrence of a
double colon (the fuel, at least the list length, only drives structural
recursion). -/
def splitOnCCFuel : Nat → List Char → List (List Char)
  | 0, _ => [[]]
  | _ + 1, [] => [[]]
  | fuel + 1, c₁ :: rest =>
    match rest with
    | [] => [[c₁]]
    | c₂ :: rest' =>
      if c₁ == ':' && c₂ == ':' then
        [] :: splitOnCCFuel fuel rest'
      else
        match splitOnCCFuel fuel rest with
        | h :: t => (c₁ :: h) :: t
        | [] => [[c₁]]

/-- Split a character list at every occurrence of a double colon. -/
def splitOnCC (l : List Char) : List (List Char) := splitOnCCFuel l.length l

/-- Modelled from Node's `net.isIP(v) === 6` (external library): eight hex
groups, or one `::` compression with fewer than eight groups (embedded
IPv4 tails are outside the modelled value space). -/
def isIPv6 (s : String) : Bool :=
  match splitOnCC s.data with
  | [whole] =>
    let parts := splitOnChar ':' whole
    parts.length == 8 && parts.all isHexGroup
  | [left, right] =>
    let lp := if left.isEmpty then [] else splitOnChar ':' left
    let rp := if right.isEmpty then [] else splitOnChar ':' right
    lp.length + rp.length < 8 && lp.all isHexGroup && rp.all isHexGroup
  | _ => false

/-- Modelled from JS `Number(s)` and `Number.isInteger(n) && n >= 0` on the
string value space: optional sign, digits, optional all-zero fractional
part; the empty (trimmed) string is `0`; other shapes behave as NaN. -/
def numberIsNonnegInt (s : String) : Bool :=
  let t := jsTrim s.data
  match t with
  | [] => true
  | c :: rest =>
    let neg := c == '-'
    let core := if c == '-' || c == '+' then rest else c :: rest
    match splitOnChar '.' core with
    | [ip] => !ip.isEmpty && ip.all Char.isDigit && (!neg || digitsToNat ip == 0)
    | [ip, fp] => !ip.isEmpty && ip.all Char.isDigit &&
        fp.all (fun d => d == '0') && (!neg || digitsToNat ip == 0)
    | _ => false

/-- The JS regular expression `/^[a-zA-Z0-9.-]+$/` of the CNAME check. -/
def hostnameTest (s : String) : Bool :=
  !s.isEmpty && s.data.all (fun c =>
    ('a' ≤ c && c ≤ 'z') || ('A' ≤ c && c ≤ 'Z') || ('0' ≤ c && c ≤ '9') ||
    c == '.' || c == '-')

/-- Error text `K[i] missing value`. -/
def missingErr (key : String) (i : Nat) : String :=
  key ++ "[" ++ toString i ++ "] missing value"

/-- Error text for an invalid TTL. -/
def ttlErr (key : String) (i : Nat) (t : Option String) : String :=
  key ++ "[" ++ toString i ++ "] has invalid ttl " ++ sq ++ jsTemplate t ++ sq

/-- Error text for an A value that is not a well-formed IPv4 address. -/
def aIpErr (i : Nat) (v : String) : String :=
  "A[" ++ toString i ++ "] value " ++ sq ++ v ++ sq ++ " is not a valid IPv4 address"

/-- Error text for an AAAA value that is not a well-formed IPv6 address. -/
def aaaaIpErr (i : Nat) (v : String) : String :=
  "AAAA[" ++ toString i ++ "] value " ++ sq ++ v ++ sq ++ " is not a valid IPv6 address"

/-- Error text for an invalid MX priority. -/
def mxPrErr (i : Nat) (p : String) : String :=
  "MX[" ++ toString i ++ "] has invalid priority " ++ sq ++ p ++ sq

/-- Error text for a CNAME value failing the hostname shape check. -/
def cnameErr (i : Nat) (v : String) : String :=
  "CNAME[" ++ toString i ++ "] value " ++ sq ++ v ++ sq ++ " looks invalid"

/-- server.js lines 193-200: the errors pushed for the A entry at index
`i`; a falsy value short-circuits every later check of that entry. -/
def aEntryErrors (i : Nat) (r : DnsRecord) : List String :=
  if jsFalsy r.value then [missingErr "A" i]
  else
    (if isIPv4 (jsTemplate r.value) then [] else [aIpErr i (jsTemplate r.value)]) ++
    (if checkTTL r.ttl then [] else [ttlErr "A" i r.ttl])

/-- server.js lines 205-212. -/
def aaaaEntryErrors (i : Nat) (r : DnsRecord) : List String :=
  if jsFalsy r.value then [missingErr "AAAA" i]
  else
    (if isIPv6 (jsTemplate r.value) then [] else [aaaaIpErr i (jsTemplate r.value)]) ++
    (if checkTTL r.ttl then [] else [ttlErr "AAAA" i r.ttl])

/-- server.js lines 217-228: an absent or empty priority is not checked. -/
def mxEntryErrors (i : Nat) (r : DnsRecord) : List String :=
  if jsFalsy r.value then [missingErr "MX" i]
  else
    (match r.priority with
     | some p => if p.isEmpty then [] else
         if numberIsNonnegInt p then [] else [mxPrErr i p]
     | none => []) ++
    (if checkTTL r.ttl then [] else [ttlErr "MX" i r.ttl])

/-- server.js lines 234-241. -/
def cnameEntryErrors (i : Nat) (r : DnsRecord) : List String :=
  if jsFalsy r.value then [missingErr "CNAME" i]
  else
    (if hostnameTest (jsTemplate r.value) then [] else [cnameErr i (jsTemplate r.value)]) ++
    (if checkTTL r.ttl then [] else [ttlErr "CNAME" i r.ttl])

/-- server.js lines 248-254: the TXT-family buckets require only that the
`value` key be present (an empty string is accepted). -/
def txtEntryErrors (key : String) (i : Nat) (r : DnsRecord) : List String :=
  match r.value with
  | none => [missingErr key i]
  | some _ => if checkTTL r.ttl then [] else [ttlErr key i r.ttl]

/-- `forEach` accumulation of the per-entry errors, with the array index. -/
def errorsFrom (f : Nat → DnsRecord → List String) : Nat → List DnsRecord → List String
  | _, [] => []
  | i, r :: rest => f i r ++ errorsFrom f (i + 1) rest

/-- `validateRecords` of src/server.js (lines 178-259).  A `RecordSet` is
always an object, so the `Records must be an object` branch and the `!r`
null-entry guard are outside the modelled value space.  Check order:
A, AAAA, MX, CNAME, then the TXT buckets in the order TXT, SPF,
`Other TXT Records`. -/
def validateRecords (rs : RecordSet) : List String :=
  (match rs.A with | some l => errorsFrom aEntryErrors 0 l | none => []) ++
  (match rs.AAAA with | some l => errorsFrom aaaaEntryErrors 0 l | none => []) ++
  (match rs.MX with | some l => errorsFrom mxEntryErrors 0 l | none => []) ++
  (match rs.CNAME with | some l => errorsFrom cnameEntryErrors 0 l | none => []) ++
  (match rs.TXT with | some l => errorsFrom (txtEntryErrors "TXT") 0 l | none => []) ++
  (match rs.SPF with | some l => errorsFrom (txtEntryErrors "SPF") 0 l | none => []) ++
  (match rs.otherTXT with | some l => errorsFrom (txtEntryErrors "Other TXT Records") 0 l | none => [])

/-! ## The store and loader of src/server.js -/

/-- The content of an on-disk file.  Writing the sidecar stores
`JSON.stringify(records)`; over the modelled value space (string fields,
absent keys dropped) `JSON.parse` inverts it exactly, so the sidecar is
modelled as the snapshot itself.  Zone text and malformed files fail
`JSON.parse`. -/
inductive FileContent where
  | zoneText (s : String)
  | snapshot (rs : RecordSet)
  | badJson
deriving DecidableEq, Repr

/-- The two zone directories; `none` is a missing directory. -/
structure ZoneFS where
  sys : Option (List (String × FileContent))
  loc : Option (List (String × FileContent))
deriving DecidableEq, Repr

/-- The listing of a possibly missing directory. -/
def dirOf {β : Type} (o : Option (List (String × β))) : List (String × β) :=
  match o with
  | some d => d
  | none => []

/-- JS object / file write update: replace the binding in place if the key
exists, otherwise append it. -/
def jsSet {β : Type} : List (String × β) → String → β → List (String × β)
  | [], k, v => [(k, v)]
  | (k₀, v₀) :: rest, k, v =>
    if k₀ == k then (k, v) :: rest else (k₀, v₀) :: jsSet rest k v

def SYSTEM_ZONE_DIR : String := "/etc/bind/zone"

/-- The local fallback directory (`path.join(__dirname, 'zones')`); the
absolute root is immaterial to every claim. -/
def LOCAL_ZONE_DIR : String := "zones"

/-- The result object of `writeZoneFile`. -/
structure WriteOutcome where
  path : String
  writtenTo : String
deriving DecidableEq, Repr

/-- `writeZoneFile` of src/server.js (lines 143-175).  `dt` is the UTC
date read by the serializer.  The Boolean oracles model filesystem
success: `sysOk` is the whole primary attempt up to and including the zone
text write (`existsSync`/`mkdirSync`/`writeFileSync`), `sysJsonOk` the
primary sidecar write (its failure is swallowed), `locOk` the fallback
writes (their failure propagates). -/
def writeZoneFile (dt : ZoneDate) (sysOk sysJsonOk locOk : Bool) (fs : ZoneFS)
    (domain : String) (records : RecordSet) : Except String (ZoneFS × WriteOutcome) :=
  let validation := validateRecords records
  if !validation.isEmpty then
    Except.error ("Validation failed: " ++ String.intercalate "; " validation)
  else
    let safeDomain := sanitizeDomainForFilename domain
    let zoneFilename := "db." ++ safeDomain
    let zoneContent := formatZoneFile dt domain records
    if sysOk then
      let dir₁ := jsSet (dirOf fs.sys) zoneFilename (FileContent.zoneText zoneContent)
      let dir₂ := if sysJsonOk then
          jsSet dir₁ (zoneFilename ++ ".json") (FileContent.snapshot records)
        else dir₁
      Except.ok ({ sys := some dir₂, loc := fs.loc },
        { path := SYSTEM_ZONE_DIR ++ "/" ++ zoneFilename, writtenTo := "system" })
    else if locOk then
      let dir₁ := jsSet (dirOf fs.loc) zoneFilename (FileContent.zoneText zoneContent)
      let dir₂ := jsSet dir₁ (zoneFilename ++ ".json") (FileContent.snapshot records)
      Except.ok ({ sys := fs.sys, loc := some dir₂ },
        { path := LOCAL_ZONE_DIR ++ "/" ++ zoneFilename, writtenTo := "local" })
    else
      Except.error "EACCES: permission denied"

/-- `JSON.parse` of a file's content, as a record set (see `FileContent`). -/
def parseSnapshot : FileContent → Option RecordSet
  | FileContent.snapshot rs => some rs
  | _ => none

/-- `f.endsWith('.json')`. -/
def endsWithJson (f : String) : Bool := (".json".data).isSuffixOf f.data

/-- `f.replace(/^db\./, '')`. -/
def dropIfLeadingDb (l : List Char) : List Char :=
  if ("db.".data).isPrefixOf l then l.drop 3 else l

/-- `.replace(/\.json$/, '')`. -/
def dropIfTrailingJson (l : List Char) : List Char :=
  if (".json".data).isSuffixOf l then l.take (l.length - 5) else l

/-- server.js line 278: the domain key derived from a sidecar filename. -/
def deriveDomainKey (f : String) : String :=
  String.mk (dropIfTrailingJson (dropIfLeadingDb f.data))

/-- One step of the loader scan (server.js lines 271-283): files not
ending in `.json` and files whose content fails to parse are skipped. -/
def loadStep (acc : List (String × RecordSet)) (e : String × FileContent) :
    List (String × RecordSet) :=
  if endsWithJson e.fst then
    match parseSnapshot e.snd with
    | some rs => jsSet acc (deriveDomainKey e.fst) rs
    | none => acc
  else acc

/-- Scan of one directory; a missing directory contributes nothing. -/
def loadDir (acc : List (String × RecordSet))
    (dir : Option (List (String × FileContent))) : List (String × RecordSet) :=
  match dir with
  | some files => files.foldl loadStep acc
  | none => acc

/-- `loadRecords` of src/server.js (lines 262-290): system directory
first, local directory second. -/
def loadRecords (fs : ZoneFS) : List (String × RecordSet) :=
  loadDir (loadDir [] fs.sys) fs.loc

/-- All files visible to the loader, in scan order. -/
def filesOf (fs : ZoneFS) : List (String × FileContent) :=
  dirOf fs.sys ++ dirOf fs.loc

/-- `fs.unlinkSync` on a directory listing. -/
def jsUnlink (dir : List (String × FileContent)) (k : String) :
    List (String × FileContent) :=
  dir.filter (fun e => e.fst != k)

/-- One best-effort removal of the delete handler: remove the target if it
exists and record its path. -/
def removeTarget (dir : List (String × FileContent)) (k : String) (p : String)
    (removed : List String) : List (String × FileContent) × List String :=
  if (List.lookup k dir).isSome then (jsUnlink dir k, removed ++ [p])
  else (dir, removed)

/-- The DELETE handler of src/server.js (lines 338-361): the four target
paths are built from the raw `domain` parameter (not sanitized), tried in
the order system text, system sidecar, local text, local sidecar. -/
def deleteDomain (fs : ZoneFS) (domain : String) : ZoneFS × List String :=
  let zoneFilename := "db." ++ domain
  let s₁ := removeTarget (dirOf fs.sys) zoneFilename
    (SYSTEM_ZONE_DIR ++ "/" ++ zoneFilename) []
  let s₂ := removeTarget s₁.fst (zoneFilename ++ ".json")
    (SYSTEM_ZONE_DIR ++ "/" ++ zoneFilename ++ ".json") s₁.snd
  let l₁ := removeTarget (dirOf fs.loc) zoneFilename
    (LOCAL_ZONE_DIR ++ "/" ++ zoneFilename) s₂.snd
  let l₂ := removeTarget l₁.fst (zoneFilename ++ ".json")
    (LOCAL_ZONE_DIR ++ "/" ++ zoneFilename ++ ".json") l₁.snd
  ({ sys := (match fs.sys with | some _ => some s₂.fst | none => none),
     loc := (match fs.loc with | some _ => some l₂.fst | none => none) },
   l₂.snd)

/-! ## Specification-side definitions (compared with the code) -/

/-- The six per-type section header comment lines. -/
def isSectionHeader (s : String) : Bool :=
  s == "; A Record" || s == "; AAAA Record" || s == "; CNAME Record" ||
  s == "; MX Record" || s == "; TXT Record" || s == "; NS Record"

/-- Does a type tag hold at least one entry? -/
def hasEntries (o : Option (List DnsRecord)) : Bool :=
  match o with
  | some l => !l.isEmpty
  | none => false

/-- Does `Other Records` hold at least one NS-typed entry? -/
def hasNSEntries (o : Option (List DnsRecord)) : Bool :=
  match o with
  | some l => !(l.filter (fun r => r.rtype == some "NS")).isEmpty
  | none => false

/-- The section headers the specification expects, in its fixed order:
A, AAAA, CNAME, MX, merged TXT, NS — each present exactly when the type
is populated. -/
def presentHeaders (rs : RecordSet) : List String :=
  (if hasEntries rs.A then ["; A Record"] else []) ++
  (if hasEntries rs.AAAA then ["; AAAA Record"] else []) ++
  (if hasEntries rs.CNAME then ["; CNAME Record"] else []) ++
  (if hasEntries rs.MX then ["; MX Record"] else []) ++
  (if !(txtList rs).isEmpty then ["; TXT Record"] else []) ++
  (if hasNSEntries rs.otherRecords then ["; NS Record"] else [])

/-- First-`some` choice on optional record sets. -/
def orElseOpt (a b : Option RecordSet) : Option RecordSet :=
  match a with
  | some r => some r
  | none => b

/-- The specification's reading of the loader: the value stored under a
key is the last file in scan order that ends in `.json`, derives that
key, and parses. -/
def lastGood (k : String) : List (String × FileContent) → Option RecordSet
  | [] => none
  | e :: rest =>
    orElseOpt (lastGood k rest)
      (if endsWithJson e.fst && deriveDomainKey e.fst == k then parseSnapshot e.snd
       else none)

/-- The local directory listing after the fallback writes of
`writeZoneFile` (text file, then sidecar). -/
def locDirAfter (dt : ZoneDate) (fs : ZoneFS) (dom : String) (rs : RecordSet) :
    List (String × FileContent) :=
  jsSet
    (jsSet (dirOf fs.loc) ("db." ++ sanitizeDomainForFilename dom)
      (FileContent.zoneText (formatZoneFile dt dom rs)))
    ("db." ++ sanitizeDomainForFilename dom ++ ".json")
    (FileContent.snapshot rs)

/-- The system directory listing after a primary attempt whose sidecar
write failed: only the zone text was written. -/
def sysDirTextOnly (dt : ZoneDate) (fs : ZoneFS) (dom : String) (rs : RecordSet) :
    List (String × FileContent) :=
  jsSet (dirOf fs.sys) ("db." ++ sanitizeDomainForFilename dom)
    (FileContent.zoneText (formatZoneFile dt dom rs))

/-! ## Basic string and list lemmas -/

theorem data_mk (l : List Char) : (String.mk l).data = l := rfl

theorem strExt {a b : String} (h : a.data = b.data) : a = b := by
  cases a; cases b; exact congrArg String.mk h

theorem strAppendLeftCancel {a b c : String} (h : a ++ b = a ++ c) : b = c := by
  apply strExt
  have hd : a.data ++ b.data = a.data ++ c.data := by
    rw [← String.data_append, ← String.data_append, h]
  exact List.append_cancel_left hd

theorem strAppendRightCancel {a b c : String} (h : a ++ c = b ++ c) : a = b := by
  apply strExt
  have hd : a.data ++ c.data = b.data ++ c.data := by
    rw [← String.data_append, ← String.data_append, h]
  exact List.append_cancel_right hd

theorem strNeAppendJson (s : String) : s ≠ s ++ ".json" := by
  intro h
  have hl := congrArg String.length h
  rw [String.length_append] at hl
  have h5 : (".json" : String).length = 5 := rfl
  omega

/-! ## Lemmas about the sanitizer -/

theorem sanitize_all_allowed (s : String) :
    ((sanitizeDomainForFilename s).data.all allowedChar) = true := by
  rw [List.all_eq_true]
  intro c hc
  rw [sanitizeDomainForFilename, data_mk] at hc
  obtain ⟨c₁, _, rfl⟩ := List.mem_map.mp hc
  by_cases h : allowedChar c₁ = true
  · rw [if_pos h]; exact h
  · rw [if_neg h]; decide

theorem len_dropWhile_le (p : Char → Bool) (l : List Char) :
    (l.dropWhile p).length ≤ l.length := by
  induction l with
  | nil => exact Nat.le_refl 0
  | cons a rest ih =>
    rw [List.dropWhile_cons]
    by_cases h : p a = true
    · rw [if_pos h]
      exact Nat.le_trans ih (Nat.le_succ _)
    · rw [if_neg h]

theorem len_jsTrim_le (l : List Char) : (jsTrim l).length ≤ l.length := by
  unfold jsTrim
  rw [List.length_reverse]
  calc ((l.dropWhile isWSChar).reverse.dropWhile isWSChar).length
      ≤ (l.dropWhile isWSChar).reverse.length := len_dropWhile_le _ _
    _ = (l.dropWhile isWSChar).length := List.length_reverse _
    _ ≤ l.length := len_dropWhile_le _ _

theorem sanitize_length (s : String) :
    (sanitizeDomainForFilename s).data.length = (jsTrim s.data).length := by
  simp [sanitizeDomainForFilename, data_mk]

theorem dropWhile_eq_self {p : Char → Bool} {l : List Char}
    (h : ∀ c, l.head? = some c → p c = false) : l.dropWhile p = l := by
  cases l with
  | nil => rfl
  | cons a rest =>
    rw [List.dropWhile_cons, h a rfl]
    simp

theorem jsTrim_eq_self {l : List Char}
    (h1 : ∀ c, l.head? = some c → isWSChar c = false)
    (h2 : ∀ c, l.getLast? = some c → isWSChar c = false) : jsTrim l = l := by
  unfold jsTrim
  rw [dropWhile_eq_self h1]
  rw [dropWhile_eq_self (fun c hc => h2 c (by rwa [List.head?_reverse] at hc))]
  exact List.reverse_reverse l

theorem allowed_not_ws {c : Char} (h : allowedChar c = true) : isWSChar c = false := by
  simp only [allowedChar, Bool.or_eq_true, Bool.and_eq_true, decide_eq_true_eq,
    beq_iff_eq] at h
  simp only [isWSChar, Bool.or_eq_false_iff, beq_eq_false_iff_ne]
  omega

/-! ## Lemmas about the first-occurrence double-tab collapse -/

theorem tab_mem_replTT : ∀ {l : List Char}, '\t' ∈ l → '\t' ∈ replTT l
  | [], h => by simp at h
  | [c], h => by simpa [replTT] using h
  | c₁ :: c₂ :: rest, h => by
    show '\t' ∈ (if c₁ == '\t' && c₂ == '\t' then '\t' :: rest
      else c₁ :: replTT (c₂ :: rest))
    by_cases htt : (c₁ == '\t' && c₂ == '\t') = true
    · rw [if_pos htt]
      exact List.mem_cons_self _ _
    · rw [if_neg htt]
      rcases List.mem_cons.mp h with h1 | h2
      · exact List.mem_cons.mpr (Or.inl h1)
      · exact List.mem_cons.mpr (Or.inr (tab_mem_replTT h2))

theorem replTT_first : ∀ (xs ys : List Char), hasTT xs = false →
    replTT (xs ++ '\t' :: '\t' :: ys) = xs ++ '\t' :: ys
  | [], ys, _ => by
    show (if ('\t' : Char) == '\t' && ('\t' : Char) == '\t' then '\t' :: ys
      else '\t' :: replTT ('\t' :: ys)) = '\t' :: ys
    rw [if_pos (by decide)]
  | [a], ys, _ => by
    show (if a == '\t' && ('\t' : Char) == '\t' then '\t' :: ('\t' :: ys)
      else a :: replTT ('\t' :: '\t' :: ys)) = a :: '\t' :: ys
    by_cases ha : a = '\t'
    · subst ha
      rw [if_pos (by decide)]
    · rw [if_neg (by simp [ha])]
      show a :: (if ('\t' : Char) == '\t' && ('\t' : Char) == '\t' then '\t' :: ys
        else '\t' :: replTT ('\t' :: ys)) = a :: '\t' :: ys
      rw [if_pos (by decide)]
  | a :: b :: m, ys, h => by
    have hor : ((a == '\t' && b == '\t') || hasTT (b :: m)) = false := h
    have hab : (a == '\t' && b == '\t') = false := (Bool.or_eq_false_iff.mp hor).1
    have h2 : hasTT (b :: m) = false := (Bool.or_eq_false_iff.mp hor).2
    show (if a == '\t' && b == '\t' then '\t' :: (m ++ '\t' :: '\t' :: ys)
      else a :: replTT (b :: m ++ '\t' :: '\t' :: ys)) = a :: b :: m ++ '\t' :: ys
    rw [if_neg (by simp [hab])]
    have := replTT_first (b :: m) ys h2
    rw [show (b :: m ++ '\t' :: '\t' :: ys) = ((b :: m) ++ '\t' :: '\t' :: ys) from rfl,
      this]
    rfl

/-! ## List-membership lemma for the error accumulation -/

theorem mem_errorsFrom (f : Nat → DnsRecord → List String) :
    ∀ (l : List DnsRecord) (i₀ i : Nat) (r : DnsRecord) (e : String),
    l.get? i = some r → e ∈ f (i₀ + i) r → e ∈ errorsFrom f i₀ l := by
  intro l
  induction l with
  | nil => intro i₀ i r e h; simp at h
  | cons a rest ih =>
    intro i₀ i r e hget hmem
    rw [show errorsFrom f i₀ (a :: rest) = f i₀ a ++ errorsFrom f (i₀ + 1) rest from rfl]
    cases i with
    | zero =>
      have : a = r := by simpa using hget
      subst this
      exact List.mem_append_left _ (by simpa using hmem)
    | succ n =>
      refine List.mem_append_right _ (ih (i₀ + 1) n r e (by simpa using hget) ?_)
      rw [show i₀ + 1 + n = i₀ + (n + 1) from by omega]
      exact hmem

/-! ## Claim theorems -/

/-- C3: for an A entry at index `i` with a non-empty value that is not a
well-formed IPv4 address, `validateRecords` contains exactly the error
text built by `aIpErr i v` (that is,
`A[i] value <v> is not a valid IPv4 address` with `v` single-quoted); an
entry with a falsy (absent or empty) value instead contributes exactly
the distinct missing-value error for that index and no IP check is
performed on it. -/
theorem c3_validate_A : ∀ (rs : RecordSet) (l : List DnsRecord) (i : Nat) (r : DnsRecord),
    rs.A = some l → l.get? i = some r →
    ((∀ v, r.value = some v → v.isEmpty = false → isIPv4 v = false →
        aIpErr i v ∈ validateRecords rs) ∧
     (jsFalsy r.value = true →
        missingErr "A" i ∈ validateRecords rs ∧
        aEntryErrors i r = [missingErr "A" i])) := by
  intro rs l i r hA hget
  constructor
  · intro v hv hne hip
    have hmem : aIpErr i v ∈ aEntryErrors i r := by
      simp [aEntryErrors, jsFalsy, hv, hne, jsTemplate, hip]
    have h0 : aIpErr i v ∈ errorsFrom aEntryErrors 0 l :=
      mem_errorsFrom aEntryErrors l 0 i r _ hget (by simpa using hmem)
    simp only [validateRecords, hA, List.mem_append]
    tauto
  · intro hf
    have he : aEntryErrors i r = [missingErr "A" i] := by
      simp [aEntryErrors, hf]
    refine ⟨?_, he⟩
    have h0 : missingErr "A" i ∈ errorsFrom aEntryErrors 0 l :=
      mem_errorsFrom aEntryErrors l 0 i r _ hget (by simp [he])
    simp only [validateRecords, hA, List.mem_append]
    tauto

/-- Witness for C3: a malformed address at index 0 yields exactly the
quoted IPv4 error, and a record with no value yields exactly the
missing-value error. -/
theorem c3_validate_A_witness :
    (aIpErr 0 "999.1.1.1" ∈ validateRecords { A := some [{ value := some "999.1.1.1" }] }) ∧
    (missingErr "A" 0 ∈ validateRecords { A := some [{}] } ∧
     aEntryErrors 0 {} = [missingErr "A" 0]) :=
  ⟨(c3_validate_A { A := some [{ value := some "999.1.1.1" }] } _ 0 _ rfl rfl).1
      "999.1.1.1" rfl (by decide) (by decide),
   (c3_validate_A { A := some [{}] } _ 0 _ rfl rfl).2 rfl⟩

/-- C4 (amended): the serializer is deterministic in its explicit inputs
together with the ambient UTC date: two invocations of `formatZoneFile`
on the same domain and record set evaluated at the same UTC date produce
the same text.  (As originally stated — determinism in the domain and
record set alone — the claim fails: see `c4_render_counterexample`.) -/
theorem c4_render_deterministic : ∀ (d₁ d₂ : ZoneDate) (dom : String) (rs : RecordSet),
    d₁ = d₂ → formatZoneFile d₁ dom rs = formatZoneFile d₂ dom rs := by
  intro d₁ d₂ dom rs h
  rw [h]

/-- Witness for C4. -/
theorem c4_render_deterministic_witness :
    formatZoneFile ⟨2024, 1, 1⟩ "example.com" {} =
      formatZoneFile ⟨2024, 1, 1⟩ "example.com" {} :=
  c4_render_deterministic ⟨2024, 1, 1⟩ ⟨2024, 1, 1⟩ "example.com" {} rfl

/-- Counterexample for C4 as stated: the same domain and record set render
to different texts on different UTC dates (the SOA serial embeds the
date), so the output is not a function of the declared inputs alone. -/
theorem c4_render_counterexample :
    ¬ (formatZoneFile ⟨2024, 1, 1⟩ "example.com" {} =
       formatZoneFile ⟨2024, 1, 2⟩ "example.com" {}) := by
  decide

/-- C7: the sanitized domain contains only lowercase ASCII letters,
digits, dot and hyphen, and sanitizing `Example.COM!` yields
`example.com-`. -/
theorem c7_sanitize_invariant :
    (∀ s, ((sanitizeDomainForFilename s).data.all allowedChar) = true) ∧
    sanitizeDomainForFilename "Example.COM!" = "example.com-" :=
  ⟨sanitize_all_allowed, by decide⟩

/-- C8: the double-tab collapse applied to every rendered record line
replaces only the first (leftmost) adjacent tab pair — everything after
it, including further adjacent tab pairs, is kept verbatim; concretely,
an A line with an empty TTL and a value containing a tab pair keeps the
second pair, and that line appears as such in the rendered zone lines. -/
theorem c8_first_tab_pair_only :
    (∀ xs ys : List Char, hasTT xs = false →
      replTT (xs ++ '\t' :: '\t' :: ys) = xs ++ '\t' :: ys) ∧
    lineA { name := some "a", value := some "x\t\ty", ttl := some "" } =
      "a\tIN\tA\tx\t\ty" ∧
    "a\tIN\tA\tx\t\ty" ∈ zoneLines ⟨2024, 5, 17⟩ "x.com"
      { A := some [{ name := some "a", value := some "x\t\ty", ttl := some "" }] } :=
  ⟨replTT_first, by decide, by decide⟩

/-- Witness for C8. -/
theorem c8_first_tab_pair_only_witness :
    replTT ("ab".data ++ '\t' :: '\t' :: "cd".data) = "ab".data ++ '\t' :: "cd".data :=
  c8_first_tab_pair_only.1 "ab".data "cd".data (by decide)

/-- The only textual difference between the two serializers: the bulk
script guards the NS block by the length of `Other Records` before
filtering; both produce the same section. -/
theorem bulk_sectNS_eq (o : Option (List DnsRecord)) : bulkSectNS o = sectNS o := by
  cases o with
  | none => rfl
  | some l =>
    cases l with
    | nil => rfl
    | cons h t => rfl

/-- C10: on every record set in which each recognized tag is absent or an
array, the serializer of src/server.js and the duplicated serializer of
the bulk import script produce identical output at the same UTC date. -/
theorem c10_serializers_agree : ∀ (dt : ZoneDate) (dom : String) (rs : RecordSet),
    bulkFormatZoneFile dt dom rs = formatZoneFile dt dom rs := by
  intro dt dom rs
  unfold bulkFormatZoneFile formatZoneFile bulkZoneLines zoneLines
  rw [bulk_sectNS_eq]
  rfl

/-! ## Lemmas for the section structure of the rendered zone text -/

theorem tab_mem_left (x y : String) (h : '\t' ∈ x.data) : '\t' ∈ (x ++ y).data := by
  rw [String.data_append]
  exact List.mem_append_left _ h

theorem tab_mem_right (x y : String) (h : '\t' ∈ y.data) : '\t' ∈ (x ++ y).data := by
  rw [String.data_append]
  exact List.mem_append_right _ h

theorem tab_mem_lineA (r : DnsRecord) : '\t' ∈ (lineA r).data := by
  apply tab_mem_replTT
  exact tab_mem_left _ _ (tab_mem_right _ _ (by decide))

theorem tab_mem_lineAAAA (r : DnsRecord) : '\t' ∈ (lineAAAA r).data := by
  apply tab_mem_replTT
  exact tab_mem_left _ _ (tab_mem_right _ _ (by decide))

theorem tab_mem_lineCNAME (r : DnsRecord) : '\t' ∈ (lineCNAME r).data := by
  apply tab_mem_replTT
  exact tab_mem_left _ _ (tab_mem_right _ _ (by decide))

theorem tab_mem_lineMX (r : DnsRecord) : '\t' ∈ (lineMX r).data := by
  apply tab_mem_replTT
  exact tab_mem_left _ _ (tab_mem_right _ _ (by decide))

theorem tab_mem_lineTXT (r : DnsRecord) : '\t' ∈ (lineTXT r).data := by
  apply tab_mem_replTT
  exact tab_mem_left _ _ (tab_mem_right _ _ (by decide))

theorem tab_mem_lineNS (r : DnsRecord) : '\t' ∈ (lineNS r).data := by
  apply tab_mem_replTT
  exact tab_mem_left _ _ (tab_mem_right _ _ (by decide))

theorem isSectionHeader_false_of_tab {s : String} (h : '\t' ∈ s.data) :
    isSectionHeader s = false := by
  have hne : ∀ t : String, '\t' ∉ t.data → (s == t) = false := fun t ht =>
    beq_eq_false_iff_ne.mpr (fun he => ht (he ▸ h))
  unfold isSectionHeader
  rw [hne "; A Record" (by decide), hne "; AAAA Record" (by decide),
    hne "; CNAME Record" (by decide), hne "; MX Record" (by decide),
    hne "; TXT Record" (by decide), hne "; NS Record" (by decide)]
  rfl

theorem isSectionHeader_false_of_head {s : String} {c : Char}
    (h : s.data.head? = some c) (hc : c ≠ ';') : isSectionHeader s = false := by
  have hne : ∀ t : String, t.data.head? = some ';' → (s == t) = false := by
    intro t ht
    refine beq_eq_false_iff_ne.mpr (fun he => hc ?_)
    rw [he, ht] at h
    exact (Option.some.inj h).symm
  unfold isSectionHeader
  rw [hne "; A Record" rfl, hne "; AAAA Record" rfl, hne "; CNAME Record" rfl,
    hne "; MX Record" rfl, hne "; TXT Record" rfl, hne "; NS Record" rfl]
  rfl

theorem filter_soaBlock (dt : ZoneDate) (dom : String) :
    (soaBlock dt dom).filter isSectionHeader = [] := by
  have hh1 : ("$ORIGIN " ++ dom ++ ".").data.head? = some '$' := by
    rw [String.data_append, String.data_append, List.head?_append, List.head?_append]
    rfl
  have h1 : isSectionHeader ("$ORIGIN " ++ dom ++ ".") = false :=
    isSectionHeader_false_of_head hh1 (by decide)
  have hh2 : ("                                        " ++ serialOf dt).data.head? =
      some ' ' := by
    rw [String.data_append, List.head?_append]
    rfl
  have h2 : isSectionHeader ("                                        " ++ serialOf dt) =
      false := isSectionHeader_false_of_head hh2 (by decide)
  simp only [soaBlock, List.filter_cons, h1, h2]
  norm_num
  decide

theorem filter_lines (f : DnsRecord → String) (hf : ∀ r, '\t' ∈ (f r).data) :
    ∀ l : List DnsRecord, (l.map f).filter isSectionHeader = []
  | [] => rfl
  | a :: rest => by
    rw [List.map_cons, List.filter_cons, isSectionHeader_false_of_tab (hf a)]
    simp only [Bool.false_eq_true, if_false]
    exact filter_lines f hf rest

theorem filter_sectA (o : Option (List DnsRecord)) :
    (sectA o).filter isSectionHeader = if hasEntries o then ["; A Record"] else [] := by
  cases o with
  | none => rfl
  | some l =>
    cases l with
    | nil => rfl
    | cons a rest =>
      show (("; A Record") :: ((a :: rest).map lineA ++ [""])).filter isSectionHeader = _
      rw [List.filter_cons, if_pos (by decide), List.filter_append,
        filter_lines lineA tab_mem_lineA]
      rfl

theorem filter_sectAAAA (o : Option (List DnsRecord)) :
    (sectAAAA o).filter isSectionHeader = if hasEntries o then ["; AAAA Record"] else [] := by
  cases o with
  | none => rfl
  | some l =>
    cases l with
    | nil => rfl
    | cons a rest =>
      show (("; AAAA Record") :: ((a :: rest).map lineAAAA ++ [""])).filter isSectionHeader = _
      rw [List.filter_cons, if_pos (by decide), List.filter_append,
        filter_lines lineAAAA tab_mem_lineAAAA]
      rfl

theorem filter_sectCNAME (o : Option (List DnsRecord)) :
    (sectCNAME o).filter isSectionHeader = if hasEntries o then ["; CNAME Record"] else [] := by
  cases o with
  | none => rfl
  | some l =>
    cases l with
    | nil => rfl
    | cons a rest =>
      show (("; CNAME Record") :: ((a :: rest).map lineCNAME ++ [""])).filter isSectionHeader = _
      rw [List.filter_cons, if_pos (by decide), List.filter_append,
        filter_lines lineCNAME tab_mem_lineCNAME]
      rfl

theorem filter_sectMX (o : Option (List DnsRecord)) :
    (sectMX o).filter isSectionHeader = if hasEntries o then ["; MX Record"] else [] := by
  cases o with
  | none => rfl
  | some l =>
    cases l with
    | nil => rfl
    | cons a rest =>
      show (("; MX Record") :: ((a :: rest).map lineMX ++ [""])).filter isSectionHeader = _
      rw [List.filter_cons, if_pos (by decide), List.filter_append,
        filter_lines lineMX tab_mem_lineMX]
      rfl

theorem filter_sectTXT (rs : RecordSet) :
    (sectTXT rs).filter isSectionHeader =
      if !(txtList rs).isEmpty then ["; TXT Record"] else [] := by
  by_cases h : (txtList rs).isEmpty = true
  · unfold sectTXT
    rw [if_pos h, h]
    rfl
  · unfold sectTXT
    rw [if_neg h, List.filter_cons, if_pos (by decide), List.filter_append,
      filter_lines lineTXT tab_mem_lineTXT]
    have hb : (txtList rs).isEmpty = false := by
      cases hx : (txtList rs).isEmpty
      · rfl
      · exact absurd hx h
    rw [hb]
    rfl

theorem filter_sectNS (o : Option (List DnsRecord)) :
    (sectNS o).filter isSectionHeader = if hasNSEntries o then ["; NS Record"] else [] := by
  cases o with
  | none => rfl
  | some l =>
    unfold sectNS hasNSEntries
    dsimp only
    by_cases h : (l.filter (fun r => r.rtype == some "NS")).isEmpty = true
    · rw [if_pos h, h]
      rfl
    · have hb : (l.filter (fun r => r.rtype == some "NS")).isEmpty = false := by
        cases hx : (l.filter (fun r => r.rtype == some "NS")).isEmpty
        · rfl
        · exact absurd hx h
      rw [if_neg h, hb, List.filter_cons, if_pos (by decide), List.filter_append,
        filter_lines lineNS tab_mem_lineNS]
      rfl

/-- C5: a section header appears in the rendered lines exactly when its
type is populated, and the populated headers appear in the fixed order
A, AAAA, CNAME, MX, merged TXT, NS (`presentHeaders` lists them in that
order); for `A := some []` and one MX entry, only the MX header is
present, with its rendered line, and no A header appears. -/
theorem c5_sections_iff_populated :
    (∀ dt dom rs, (zoneLines dt dom rs).filter isSectionHeader = presentHeaders rs) ∧
    (zoneLines ⟨2024, 5, 17⟩ "x.com"
        { A := some [], MX := some [{ value := some "mail.x.com" }] }).filter
        isSectionHeader = ["; MX Record"] ∧
    "@\tIN\tMX\t10\tmail.x.com" ∈ zoneLines ⟨2024, 5, 17⟩ "x.com"
        { A := some [], MX := some [{ value := some "mail.x.com" }] } ∧
    "; A Record" ∉ zoneLines ⟨2024, 5, 17⟩ "x.com"
        { A := some [], MX := some [{ value := some "mail.x.com" }] } := by
  refine ⟨fun dt dom rs => ?_, by decide, by decide, by decide⟩
  unfold zoneLines presentHeaders
  rw [List.filter_append, List.filter_append, List.filter_append, List.filter_append,
    List.filter_append, List.filter_append, filter_soaBlock, filter_sectA,
    filter_sectAAAA, filter_sectCNAME, filter_sectMX, filter_sectTXT, filter_sectNS]
  rw [List.nil_append]

/-! ## Lemmas about map updates and the loader scan -/

theorem bool_eq_false {b : Bool} (h : ¬ b = true) : b = false := by
  cases b
  · rfl
  · exact absurd rfl h

theorem lookup_jsSet_self {β : Type} (m : List (String × β)) (k : String) (v : β) :
    List.lookup k (jsSet m k v) = some v := by
  induction m with
  | nil => simp [jsSet, List.lookup]
  | cons e rest ih =>
    obtain ⟨k₀, v₀⟩ := e
    by_cases h : (k₀ == k) = true
    · simp only [jsSet, if_pos h]
      simp [List.lookup]
    · simp only [jsSet, if_neg h]
      have hne : (k == k₀) = false :=
        beq_eq_false_iff_ne.mpr (fun he => h (by rw [he]; exact beq_self_eq_true k₀))
      simp [List.lookup, hne, ih]

theorem lookup_jsSet_ne {β : Type} (m : List (String × β)) (k k' : String) (v : β)
    (h : k' ≠ k) : List.lookup k' (jsSet m k v) = List.lookup k' m := by
  induction m with
  | nil =>
    simp [jsSet, List.lookup, beq_eq_false_iff_ne.mpr h]
  | cons e rest ih =>
    obtain ⟨k₀, v₀⟩ := e
    by_cases hk : (k₀ == k) = true
    · have hk' : k₀ = k := eq_of_beq hk
      simp only [jsSet, if_pos hk]
      subst hk'
      simp [List.lookup, beq_eq_false_iff_ne.mpr h]
    · simp only [jsSet, if_neg hk]
      by_cases he : (k' == k₀) = true
      · simp [List.lookup, he]
      · simp [List.lookup, bool_eq_false he, ih]

theorem mem_jsSet_fst {β : Type} : ∀ {m : List (String × β)} {k : String} {v : β}
    {e : String × β}, e ∈ jsSet m k v → e.fst = k ∨ e ∈ m := by
  intro m
  induction m with
  | nil =>
    intro k v e he
    simp [jsSet] at he
    exact Or.inl (by rw [he])
  | cons e₀ rest ih =>
    intro k v e he
    obtain ⟨k₀, v₀⟩ := e₀
    by_cases hk : (k₀ == k) = true
    · simp only [jsSet, if_pos hk] at he
      rcases List.mem_cons.mp he with h1 | h2
      · exact Or.inl (by rw [h1])
      · exact Or.inr (List.mem_cons.mpr (Or.inr h2))
    · simp only [jsSet, if_neg hk] at he
      rcases List.mem_cons.mp he with h1 | h2
      · exact Or.inr (List.mem_cons.mpr (Or.inl h1))
      · rcases ih h2 with h3 | h4
        · exact Or.inl h3
        · exact Or.inr (List.mem_cons.mpr (Or.inr h4))

theorem jsSet_append_of_not_key {β : Type} : ∀ (m : List (String × β)) (k : String) (v : β),
    (∀ e ∈ m, e.fst ≠ k) → jsSet m k v = m ++ [(k, v)]
  | [], k, v, _ => rfl
  | e₀ :: rest, k, v, h => by
    obtain ⟨k₀, v₀⟩ := e₀
    have hk : (k₀ == k) = false :=
      beq_eq_false_iff_ne.mpr (h (k₀, v₀) (List.mem_cons_self _ _))
    simp only [jsSet, hk, Bool.false_eq_true, if_false]
    rw [jsSet_append_of_not_key rest k v
      (fun e he => h e (List.mem_cons.mpr (Or.inr he)))]
    rfl

theorem orElseOpt_none_right (a : Option RecordSet) : orElseOpt a none = a := by
  cases a <;> rfl

theorem lastGood_append (k : String) (a b : List (String × FileContent)) :
    lastGood k (a ++ b) = orElseOpt (lastGood k b) (lastGood k a) := by
  induction a with
  | nil =>
    rw [List.nil_append, show lastGood k ([] : List (String × FileContent)) = none from rfl,
      orElseOpt_none_right]
  | cons e rest ih =>
    rw [List.cons_append]
    show orElseOpt (lastGood k (rest ++ b)) _ =
      orElseOpt (lastGood k b) (orElseOpt (lastGood k rest) _)
    rw [ih]
    cases lastGood k b <;> cases lastGood k rest <;> rfl

theorem lastGood_eq_none {k : String} : ∀ {l : List (String × FileContent)},
    (∀ e ∈ l, deriveDomainKey e.fst ≠ k) → lastGood k l = none
  | [], _ => rfl
  | e :: rest, h => by
    show orElseOpt (lastGood k rest) _ = none
    rw [lastGood_eq_none (fun e' he' => h e' (List.mem_cons.mpr (Or.inr he')))]
    have hkf : (deriveDomainKey e.fst == k) = false :=
      beq_eq_false_iff_ne.mpr (h e (List.mem_cons_self _ _))
    simp [orElseOpt, hkf]

theorem lastGood_snoc_hit (k : String) (m : List (String × FileContent)) (g : String)
    (rs : RecordSet) (h1 : endsWithJson g = true) (h2 : deriveDomainKey g = k) :
    lastGood k (m ++ [(g, FileContent.snapshot rs)]) = some rs := by
  rw [lastGood_append]
  have hone : lastGood k [(g, FileContent.snapshot rs)] = some rs := by
    show orElseOpt (lastGood k []) _ = some rs
    rw [show lastGood k ([] : List (String × FileContent)) = none from rfl]
    simp [orElseOpt, h1, h2, parseSnapshot]
  rw [hone]
  rfl

theorem lookup_foldl_loadStep (k : String) :
    ∀ (files : List (String × FileContent)) (m : List (String × RecordSet)),
    List.lookup k (files.foldl loadStep m) =
      (match lastGood k files with
       | some r => some r
       | none => List.lookup k m)
  | [], m => rfl
  | e :: rest, m => by
    rw [List.foldl_cons, lookup_foldl_loadStep k rest (loadStep m e)]
    show _ = (match orElseOpt (lastGood k rest) _ with
              | some r => some r
              | none => List.lookup k m)
    cases hlg : lastGood k rest with
    | some r => simp [orElseOpt]
    | none =>
      simp only [orElseOpt]
      unfold loadStep
      by_cases hj : endsWithJson e.fst = true
      · rw [if_pos hj]
        cases hp : parseSnapshot e.snd with
        | some rs =>
          by_cases hk : (deriveDomainKey e.fst == k) = true
          · have hkk : deriveDomainKey e.fst = k := eq_of_beq hk
            simp only [hp]
            rw [hkk, lookup_jsSet_self]
            simp [hj, hk, hp]
          · have hkne : k ≠ deriveDomainKey e.fst := fun he =>
              hk (by rw [he]; exact beq_self_eq_true _)
            simp only [hp]
            rw [lookup_jsSet_ne _ _ _ _ hkne]
            simp [hj, bool_eq_false hk]
        | none =>
          simp only [hp]
          simp [hp, ite_self]
      · rw [if_neg hj]
        simp [bool_eq_false hj]

theorem lookup_loadRecords (fs : ZoneFS) (k : String) :
    List.lookup k (loadRecords fs) = lastGood k (filesOf fs) := by
  obtain ⟨s, l⟩ := fs
  cases s with
  | none =>
    cases l with
    | none => rfl
    | some dl =>
      show List.lookup k (dl.foldl loadStep []) = lastGood k ([] ++ dl)
      rw [lookup_foldl_loadStep, List.nil_append]
      cases lastGood k dl <;> rfl
  | some ds =>
    cases l with
    | none =>
      show List.lookup k (ds.foldl loadStep []) = lastGood k (ds ++ [])
      rw [lookup_foldl_loadStep, List.append_nil]
      cases lastGood k ds <;> rfl
    | some dl =>
      show List.lookup k (dl.foldl loadStep (ds.foldl loadStep [])) = lastGood k (ds ++ dl)
      rw [lookup_foldl_loadStep, lookup_foldl_loadStep, lastGood_append]
      cases lastGood k dl <;> cases lastGood k ds <;> rfl

/-- C6: the loader scans the system directory and then the local
directory; the value reachable under a key is exactly the last
`.json`-suffixed, parseable file in that scan order whose filename —
stripped of a leading `db.` and a trailing `.json` — derives that key
(`lastGood`), so a local sidecar overwrites a system one for the same
derived domain; malformed files are skipped, missing directories
contribute nothing, and `db.example.com.json` derives `example.com`. -/
theorem c6_loader_scan :
    (∀ fs k, List.lookup k (loadRecords fs) = lastGood k (filesOf fs)) ∧
    loadRecords ⟨none, none⟩ = [] ∧
    deriveDomainKey "db.example.com.json" = "example.com" ∧
    loadRecords ⟨some [("db.a.json", FileContent.snapshot { A := some [] })],
                 some [("db.a.json", FileContent.snapshot { TXT := some [] })]⟩ =
      [("a", { TXT := some [] })] ∧
    loadRecords ⟨some [("db.a.json", FileContent.badJson)], none⟩ = [] :=
  ⟨lookup_loadRecords, rfl, by decide, by decide, rfl⟩

/-- C2: if any step of the primary attempt up to and including the zone
text write fails (`sysOk = false`) and the fallback succeeds, the write
puts both the zone text and the sidecar into the local directory and
reports location `local`; a sidecar failure after a successful primary
text write is swallowed (the call still reports `system`, the sidecar
binding is untouched); a fallback failure propagates as an error. -/
theorem c2_store_fallback :
    ∀ (dt : ZoneDate) (sysOk sysJsonOk locOk : Bool) (fs : ZoneFS) (dom : String)
      (rs : RecordSet), validateRecords rs = [] →
    ((sysOk = false → locOk = true →
        writeZoneFile dt sysOk sysJsonOk locOk fs dom rs =
          Except.ok
            ({ sys := fs.sys, loc := some (locDirAfter dt fs dom rs) },
             { path := LOCAL_ZONE_DIR ++ "/" ++ ("db." ++ sanitizeDomainForFilename dom),
               writtenTo := "local" }) ∧
        List.lookup ("db." ++ sanitizeDomainForFilename dom) (locDirAfter dt fs dom rs) =
          some (FileContent.zoneText (formatZoneFile dt dom rs)) ∧
        List.lookup ("db." ++ sanitizeDomainForFilename dom ++ ".json")
          (locDirAfter dt fs dom rs) = some (FileContent.snapshot rs)) ∧
     (sysOk = true → sysJsonOk = false →
        writeZoneFile dt sysOk sysJsonOk locOk fs dom rs =
          Except.ok
            ({ sys := some (sysDirTextOnly dt fs dom rs), loc := fs.loc },
             { path := SYSTEM_ZONE_DIR ++ "/" ++ ("db." ++ sanitizeDomainForFilename dom),
               writtenTo := "system" }) ∧
        List.lookup ("db." ++ sanitizeDomainForFilename dom ++ ".json")
          (sysDirTextOnly dt fs dom rs) =
          List.lookup ("db." ++ sanitizeDomainForFilename dom ++ ".json") (dirOf fs.sys)) ∧
     (sysOk = false → locOk = false →
        writeZoneFile dt sysOk sysJsonOk locOk fs dom rs =
          Except.error "EACCES: permission denied")) := by
  intro dt sysOk sysJsonOk locOk fs dom rs hval
  refine ⟨?_, ?_, ?_⟩
  · rintro rfl rfl
    refine ⟨?_, ?_, ?_⟩
    · simp [writeZoneFile, hval, locDirAfter]
    · rw [locDirAfter, lookup_jsSet_ne _ _ _ _ (strNeAppendJson _), lookup_jsSet_self]
    · rw [locDirAfter, lookup_jsSet_self]
  · rintro rfl rfl
    refine ⟨?_, ?_⟩
    · simp [writeZoneFile, hval, sysDirTextOnly]
    · rw [sysDirTextOnly, lookup_jsSet_ne _ _ _ _ (Ne.symm (strNeAppendJson _))]
  · rintro rfl rfl
    simp [writeZoneFile, hval]

/-- Witness for C2 (the fallback case, at concrete inputs). -/
theorem c2_store_fallback_witness :
    writeZoneFile ⟨2024, 1, 2⟩ false true true ⟨none, none⟩ "x.com"
        { A := some [{ name := some "@", value := some "1.2.3.4", ttl := some "3600" }] } =
      Except.ok
        ({ sys := (⟨none, none⟩ : ZoneFS).sys,
           loc := some (locDirAfter ⟨2024, 1, 2⟩ ⟨none, none⟩ "x.com"
             { A := some [{ name := some "@", value := some "1.2.3.4", ttl := some "3600" }] }) },
         { path := LOCAL_ZONE_DIR ++ "/" ++ ("db." ++ sanitizeDomainForFilename "x.com"),
           writtenTo := "local" }) ∧
    List.lookup ("db." ++ sanitizeDomainForFilename "x.com")
        (locDirAfter ⟨2024, 1, 2⟩ ⟨none, none⟩ "x.com"
          { A := some [{ name := some "@", value := some "1.2.3.4", ttl := some "3600" }] }) =
      some (FileContent.zoneText (formatZoneFile ⟨2024, 1, 2⟩ "x.com"
        { A := some [{ name := some "@", value := some "1.2.3.4", ttl := some "3600" }] })) ∧
    List.lookup ("db." ++ sanitizeDomainForFilename "x.com" ++ ".json")
        (locDirAfter ⟨2024, 1, 2⟩ ⟨none, none⟩ "x.com"
          { A := some [{ name := some "@", value := some "1.2.3.4", ttl := some "3600" }] }) =
      some (FileContent.snapshot
        { A := some [{ name := some "@", value := some "1.2.3.4", ttl := some "3600" }] }) :=
  (c2_store_fallback ⟨2024, 1, 2⟩ false true true ⟨none, none⟩ "x.com"
    { A := some [{ name := some "@", value := some "1.2.3.4", ttl := some "3600" }] }
    (by decide)).1 rfl rfl

/-! ## Lemmas about filename prefixes and suffixes -/

theorem isPrefixOf_append_self : ∀ (l t : List Char), l.isPrefixOf (l ++ t) = true
  | [], [] => rfl
  | [], _ :: _ => rfl
  | a :: l', t => by
    show (a == a && l'.isPrefixOf (l' ++ t)) = true
    rw [beq_self_eq_true, isPrefixOf_append_self l' t]
    rfl

theorem isSuffixOf_append_self (l p : List Char) : p.isSuffixOf (l ++ p) = true := by
  show p.reverse.isPrefixOf (l ++ p).reverse = true
  rw [List.reverse_append]
  exact isPrefixOf_append_self _ _

theorem endsWithJson_append (x : String) : endsWithJson (x ++ ".json") = true := by
  unfold endsWithJson
  rw [String.data_append]
  exact isSuffixOf_append_self _ _

theorem deriveKey_db_json (s : String) :
    deriveDomainKey ("db." ++ s ++ ".json") = s := by
  apply strExt
  rw [show (deriveDomainKey ("db." ++ s ++ ".json")).data =
    dropIfTrailingJson (dropIfLeadingDb (("db." ++ s ++ ".json").data)) from rfl]
  have hdata : ("db." ++ s ++ ".json").data = "db.".data ++ (s.data ++ ".json".data) := by
    rw [String.data_append, String.data_append, List.append_assoc]
  rw [hdata]
  have h1 : dropIfLeadingDb ("db.".data ++ (s.data ++ ".json".data)) =
      s.data ++ ".json".data := by
    unfold dropIfLeadingDb
    rw [if_pos (isPrefixOf_append_self _ _)]
    rw [show (3 : Nat) = ("db.".data).length from rfl, List.drop_left]
  rw [h1]
  unfold dropIfTrailingJson
  rw [if_pos (isSuffixOf_append_self _ _)]
  have hlen : (s.data ++ ".json".data).length - 5 = s.data.length := by
    rw [List.length_append]
    rfl
  rw [hlen, List.take_left]

/-- C1 (amended): for every valid record set and every domain, starting
from a store in which no visible file derives the sanitized domain as its
key, a successful write (with the sidecar write also succeeding) followed
by `loadRecords` yields, under the SANITIZED domain's key, a record set
equal to the input.  (As originally stated — under the raw domain's key —
the claim fails whenever sanitization changes the domain: see
`c1_roundtrip_counterexample`.) -/
theorem dirOf_some {β : Type} (d : List (String × β)) : dirOf (some d) = d := rfl

theorem lastGood_write_dir (dirin : List (String × FileContent)) (safe : String)
    (tv : FileContent) (rs : RecordSet)
    (hk : ∀ e ∈ dirin, deriveDomainKey e.fst ≠ safe) :
    lastGood safe (jsSet (jsSet dirin ("db." ++ safe) tv)
      ("db." ++ safe ++ ".json") (FileContent.snapshot rs)) = some rs := by
  have hderive : deriveDomainKey ("db." ++ safe ++ ".json") = safe := deriveKey_db_json _
  have hends : endsWithJson ("db." ++ safe ++ ".json") = true :=
    endsWithJson_append ("db." ++ safe)
  have hsnoc : jsSet (jsSet dirin ("db." ++ safe) tv) ("db." ++ safe ++ ".json")
      (FileContent.snapshot rs) =
      jsSet dirin ("db." ++ safe) tv ++
        [("db." ++ safe ++ ".json", FileContent.snapshot rs)] := by
    apply jsSet_append_of_not_key
    intro e he
    rcases mem_jsSet_fst he with h1 | h2
    · rw [h1]
      exact strNeAppendJson _
    · intro hc
      exact hk e h2 (by rw [hc, hderive])
  rw [hsnoc, lastGood_snoc_hit _ _ _ _ hends hderive]

theorem c1_roundtrip_sanitized_key :
    ∀ (dt : ZoneDate) (sysOk locOk : Bool) (fs : ZoneFS) (dom : String) (rs : RecordSet),
    validateRecords rs = [] →
    (sysOk = true ∨ locOk = true) →
    (∀ e ∈ filesOf fs, deriveDomainKey e.fst ≠ sanitizeDomainForFilename dom) →
    ∃ fs₂ out,
      writeZoneFile dt sysOk true locOk fs dom rs = Except.ok (fs₂, out) ∧
      List.lookup (sanitizeDomainForFilename dom) (loadRecords fs₂) = some rs := by
  intro dt sysOk locOk fs dom rs hval hdisj hkeys
  cases sysOk with
  | true =>
    refine ⟨⟨some (jsSet
        (jsSet (dirOf fs.sys) ("db." ++ sanitizeDomainForFilename dom)
          (FileContent.zoneText (formatZoneFile dt dom rs)))
        ("db." ++ sanitizeDomainForFilename dom ++ ".json") (FileContent.snapshot rs)),
        fs.loc⟩,
      ⟨SYSTEM_ZONE_DIR ++ "/" ++ ("db." ++ sanitizeDomainForFilename dom),
        "system"⟩, ?_, ?_⟩
    · simp [writeZoneFile, hval]
    · rw [lookup_loadRecords]
      unfold filesOf
      dsimp only
      rw [dirOf_some, lastGood_append,
        lastGood_eq_none (fun e he => hkeys e (List.mem_append_right _ he))]
      exact lastGood_write_dir (dirOf fs.sys) _ _ rs
        (fun e he => hkeys e (List.mem_append_left _ he))
  | false =>
    have hlocOk : locOk = true := by
      cases hdisj with
      | inl h => exact absurd h (by simp)
      | inr h => exact h
    subst hlocOk
    refine ⟨⟨fs.sys,
        some (jsSet
          (jsSet (dirOf fs.loc) ("db." ++ sanitizeDomainForFilename dom)
            (FileContent.zoneText (formatZoneFile dt dom rs)))
          ("db." ++ sanitizeDomainForFilename dom ++ ".json") (FileContent.snapshot rs))⟩,
      ⟨LOCAL_ZONE_DIR ++ "/" ++ ("db." ++ sanitizeDomainForFilename dom),
        "local"⟩, ?_, ?_⟩
    · simp [writeZoneFile, hval]
    · rw [lookup_loadRecords]
      unfold filesOf
      dsimp only
      rw [dirOf_some, lastGood_append,
        lastGood_write_dir (dirOf fs.loc) _ _ rs
          (fun e he => hkeys e (List.mem_append_right _ he))]
      rfl

/-- Witness for C1 (amended): a write of a valid record set for
`Example.COM` from an empty store is found again under `example.com`. -/
theorem c1_roundtrip_sanitized_key_witness :
    ∃ fs₂ out,
      writeZoneFile ⟨2024, 1, 2⟩ true true true ⟨none, none⟩ "Example.COM"
          { A := some [{ name := some "@", value := some "1.2.3.4", ttl := some "3600" }] } =
        Except.ok (fs₂, out) ∧
      List.lookup (sanitizeDomainForFilename "Example.COM") (loadRecords fs₂) =
        some { A := some [{ name := some "@", value := some "1.2.3.4", ttl := some "3600" }] } :=
  c1_roundtrip_sanitized_key ⟨2024, 1, 2⟩ true true ⟨none, none⟩ "Example.COM"
    { A := some [{ name := some "@", value := some "1.2.3.4", ttl := some "3600" }] }
    (by decide) (Or.inl rfl) (by intro e he; simp [filesOf, dirOf] at he)

/-- Counterexample for C1 as stated: after a successful write of a valid
record set for the domain `Example.COM` (empty store, all writes
succeed), `loadRecords` has NO entry under the raw domain key
`Example.COM` — the snapshot is keyed by the sanitized `example.com`. -/
theorem c1_roundtrip_counterexample :
    validateRecords
        { A := some [{ name := some "@", value := some "1.2.3.4", ttl := some "3600" }] } = [] ∧
    writeZoneFile ⟨2024, 1, 2⟩ true true true ⟨none, none⟩ "Example.COM"
        { A := some [{ name := some "@", value := some "1.2.3.4", ttl := some "3600" }] } =
      Except.ok
        ({ sys := some [("db.example.com",
              FileContent.zoneText (formatZoneFile ⟨2024, 1, 2⟩ "Example.COM"
                { A := some [{ name := some "@", value := some "1.2.3.4", ttl := some "3600" }] })),
            ("db.example.com.json",
              FileContent.snapshot
                { A := some [{ name := some "@", value := some "1.2.3.4", ttl := some "3600" }] })],
           loc := none },
         { path := "/etc/bind/zone/db.example.com", writtenTo := "system" }) ∧
    List.lookup "Example.COM"
        (loadRecords
          { sys := some [("db.example.com",
                FileContent.zoneText (formatZoneFile ⟨2024, 1, 2⟩ "Example.COM"
                  { A := some [{ name := some "@", value := some "1.2.3.4", ttl := some "3600" }] })),
              ("db.example.com.json",
                FileContent.snapshot
                  { A := some [{ name := some "@", value := some "1.2.3.4", ttl := some "3600" }] })],
             loc := none }) = none ∧
    List.lookup "example.com"
        (loadRecords
          { sys := some [("db.example.com",
                FileContent.zoneText (formatZoneFile ⟨2024, 1, 2⟩ "Example.COM"
                  { A := some [{ name := some "@", value := some "1.2.3.4", ttl := some "3600" }] })),
              ("db.example.com.json",
                FileContent.snapshot
                  { A := some [{ name := some "@", value := some "1.2.3.4", ttl := some "3600" }] })],
             loc := none }) =
      some { A := some [{ name := some "@", value := some "1.2.3.4", ttl := some "3600" }] } := by
  refine ⟨by decide, ?_, ?_, ?_⟩
  · rfl
  · decide
  · decide

/-! ## Lemmas for the delete path -/

theorem dom_ne_sanitize_json (dom : String) :
    dom ≠ sanitizeDomainForFilename dom ++ ".json" := by
  intro he
  have hdata : dom.data = (sanitizeDomainForFilename dom).data ++ ".json".data := by
    conv_lhs => rw [he, String.data_append]
  have hall := sanitize_all_allowed dom
  rw [List.all_eq_true] at hall
  cases hs : (sanitizeDomainForFilename dom).data with
  | nil =>
    have hdom : dom = ".json" := strExt (by rw [hdata, hs]; rfl)
    rw [hdom] at hs
    have hj : (sanitizeDomainForFilename ".json").data = ".json".data := by decide
    rw [hj] at hs
    exact absurd hs (by decide)
  | cons c rest =>
    have hhead : dom.data.head? = some c := by
      rw [hdata, hs]
      rfl
    have hc_allowed : allowedChar c = true :=
      hall c (by rw [hs]; exact List.mem_cons_self _ _)
    have hlast : dom.data.getLast? = some 'n' := by
      rw [hdata, List.getLast?_append]
      rfl
    have htrim : jsTrim dom.data = dom.data := by
      apply jsTrim_eq_self
      · intro c' hc'
        rw [hhead] at hc'
        rw [← Option.some.inj hc']
        exact allowed_not_ws hc_allowed
      · intro c' hc'
        rw [hlast] at hc'
        rw [← Option.some.inj hc']
        decide
    have h1 : (sanitizeDomainForFilename dom).data.length = (jsTrim dom.data).length :=
      sanitize_length dom
    rw [htrim, hdata, List.length_append] at h1
    have h5 : (".json".data).length = 5 := rfl
    omega

theorem dom_json_ne_sanitize (dom : String) :
    dom ++ ".json" ≠ sanitizeDomainForFilename dom := by
  intro he
  have hdata := congrArg String.data he
  rw [String.data_append] at hdata
  have hlen := congrArg List.length hdata
  rw [List.length_append] at hlen
  have h1 := sanitize_length dom
  have h2 := len_jsTrim_le dom.data
  have h5 : (".json".data).length = 5 := rfl
  omega

theorem deleteDomain_no_match : ∀ (fs : ZoneFS) (dom : String),
    List.lookup ("db." ++ dom) (dirOf fs.sys) = none →
    List.lookup ("db." ++ dom ++ ".json") (dirOf fs.sys) = none →
    List.lookup ("db." ++ dom) (dirOf fs.loc) = none →
    List.lookup ("db." ++ dom ++ ".json") (dirOf fs.loc) = none →
    deleteDomain fs dom = (fs, []) := by
  intro fs dom h1 h2 h3 h4
  obtain ⟨s, l⟩ := fs
  unfold deleteDomain
  simp only at h1 h2 h3 h4
  simp only [removeTarget, h1, h2, h3, h4, Option.isSome_none, Bool.false_eq_true,
    if_false]
  cases s <;> cases l <;> rfl

/-- C9: the delete handler builds its four target paths from the raw
domain, while the write stores artifacts under the sanitized domain; so
for every domain whose sanitized form differs from the raw string,
deleting right after a successful write (from an empty store) removes
nothing and returns an empty removed-paths list. -/
theorem c9_delete_raw_domain :
    ∀ (dt : ZoneDate) (sysOk sysJsonOk locOk : Bool) (dom : String) (rs : RecordSet)
      (fs₂ : ZoneFS) (out : WriteOutcome),
    sanitizeDomainForFilename dom ≠ dom →
    validateRecords rs = [] →
    writeZoneFile dt sysOk sysJsonOk locOk ⟨none, none⟩ dom rs = Except.ok (fs₂, out) →
    deleteDomain fs₂ dom = (fs₂, []) := by
  intro dt sysOk sysJsonOk locOk dom rs fs₂ out hne hval hw
  have ia : ("db." ++ dom) ≠ ("db." ++ sanitizeDomainForFilename dom) :=
    fun he => hne (strAppendLeftCancel he).symm
  have ib : ("db." ++ dom) ≠ ("db." ++ sanitizeDomainForFilename dom ++ ".json") := by
    intro he
    rw [String.append_assoc] at he
    exact dom_ne_sanitize_json dom (strAppendLeftCancel he)
  have ic : ("db." ++ dom ++ ".json") ≠ ("db." ++ sanitizeDomainForFilename dom) := by
    intro he
    rw [String.append_assoc "db." dom ".json"] at he
    exact dom_json_ne_sanitize dom (strAppendLeftCancel he)
  have idd : ("db." ++ dom ++ ".json") ≠
      ("db." ++ sanitizeDomainForFilename dom ++ ".json") := by
    intro he
    exact hne (strAppendLeftCancel (strAppendRightCancel he)).symm
  cases sysOk with
  | true =>
    cases sysJsonOk with
    | true =>
      have hred : writeZoneFile dt true true locOk ⟨none, none⟩ dom rs =
          Except.ok
            (⟨some (jsSet (jsSet [] ("db." ++ sanitizeDomainForFilename dom)
                (FileContent.zoneText (formatZoneFile dt dom rs)))
                ("db." ++ sanitizeDomainForFilename dom ++ ".json")
                (FileContent.snapshot rs)), none⟩,
             ⟨SYSTEM_ZONE_DIR ++ "/" ++ ("db." ++ sanitizeDomainForFilename dom),
               "system"⟩) := by
        simp [writeZoneFile, hval, dirOf]
      rw [hred, Except.ok.injEq, Prod.mk.injEq] at hw
      obtain ⟨hfs, -⟩ := hw
      subst hfs
      apply deleteDomain_no_match
      · simp only [dirOf_some]
        rw [lookup_jsSet_ne _ _ _ _ ib, lookup_jsSet_ne _ _ _ _ ia]
        rfl
      · simp only [dirOf_some]
        rw [lookup_jsSet_ne _ _ _ _ idd, lookup_jsSet_ne _ _ _ _ ic]
        rfl
      · rfl
      · rfl
    | false =>
      have hred : writeZoneFile dt true false locOk ⟨none, none⟩ dom rs =
          Except.ok
            (⟨some (jsSet [] ("db." ++ sanitizeDomainForFilename dom)
                (FileContent.zoneText (formatZoneFile dt dom rs))), none⟩,
             ⟨SYSTEM_ZONE_DIR ++ "/" ++ ("db." ++ sanitizeDomainForFilename dom),
               "system"⟩) := by
        simp [writeZoneFile, hval, dirOf]
      rw [hred, Except.ok.injEq, Prod.mk.injEq] at hw
      obtain ⟨hfs, -⟩ := hw
      subst hfs
      apply deleteDomain_no_match
      · simp only [dirOf_some]
        rw [lookup_jsSet_ne _ _ _ _ ia]
        rfl
      · simp only [dirOf_some]
        rw [lookup_jsSet_ne _ _ _ _ ic]
        rfl
      · rfl
      · rfl
  | false =>
    cases locOk with
    | true =>
      have hred : writeZoneFile dt false sysJsonOk true ⟨none, none⟩ dom rs =
          Except.ok
            (⟨none, some (jsSet (jsSet [] ("db." ++ sanitizeDomainForFilename dom)
                (FileContent.zoneText (formatZoneFile dt dom rs)))
                ("db." ++ sanitizeDomainForFilename dom ++ ".json")
                (FileContent.snapshot rs))⟩,
             ⟨LOCAL_ZONE_DIR ++ "/" ++ ("db." ++ sanitizeDomainForFilename dom),
               "local"⟩) := by
        simp [writeZoneFile, hval, dirOf]
      rw [hred, Except.ok.injEq, Prod.mk.injEq] at hw
      obtain ⟨hfs, -⟩ := hw
      subst hfs
      apply deleteDomain_no_match
      · rfl
      · rfl
      · simp only [dirOf_some]
        rw [lookup_jsSet_ne _ _ _ _ ib, lookup_jsSet_ne _ _ _ _ ia]
        rfl
      · simp only [dirOf_some]
        rw [lookup_jsSet_ne _ _ _ _ idd, lookup_jsSet_ne _ _ _ _ ic]
        rfl
    | false =>
      exfalso
      simp [writeZoneFile, hval] at hw

/-- Witness for C9: after writing a valid record set for `Example.COM`
(stored under `db.example.com`), deleting `Example.COM` removes nothing. -/
theorem c9_delete_raw_domain_witness :
    deleteDomain
        ⟨some [("db.example.com",
            FileContent.zoneText (formatZoneFile ⟨2024, 1, 2⟩ "Example.COM"
              { A := some [{ name := some "@", value := some "1.2.3.4", ttl := some "3600" }] })),
          ("db.example.com.json",
            FileContent.snapshot
              { A := some [{ name := some "@", value := some "1.2.3.4", ttl := some "3600" }] })],
          none⟩ "Example.COM" =
      (⟨some [("db.example.com",
            FileContent.zoneText (formatZoneFile ⟨2024, 1, 2⟩ "Example.COM"
              { A := some [{ name := some "@", value := some "1.2.3.4", ttl := some "3600" }] })),
          ("db.example.com.json",
            FileContent.snapshot
              { A := some [{ name := some "@", value := some "1.2.3.4", ttl := some "3600" }] })],
          none⟩, []) :=
  c9_delete_raw_domain ⟨2024, 1, 2⟩ true true true "Example.COM"
    { A := some [{ name := some "@", value := some "1.2.3.4", ttl := some "3600" }] }
    _ _ (by decide) (by decide) rfl

end Dns
